import Mathlib

/-!
Verification development for the raydium-library quoting core.

The Rust sources are shallowly embedded: u64/u128 values become `Nat` with
explicit bounds `U64_MOD`/`U128_MOD` where the source uses checked or wrapping
arithmetic, fallible code returns `Except`, and a Rust `.unwrap()` on an
`Err`/`None` (a process abort) is modelled as a distinguished error
constructor.  Functions of external crates (spl_token_2022, raydium_amm,
raydium_amm_v3) that the repository calls are modelled from the spec and
marked as such in their doc comments.
-/

/-- The u64 overflow bound, 2 to the 64. -/
def U64_MOD : Nat := 18446744073709551616

/-- The u128 overflow bound, 2 to the 128. -/
def U128_MOD : Nat := 340282366920938463463374607431768211456

/-- The constant TEN_THOUSAND from common_types.rs line 46 (a u128 in the source). -/
def TEN_THOUSAND : Nat := 10000

/-- Failure modes of the common_utils helpers: the Err path of u64::try_from in
amount_with_slippage, and Rust unwrap aborts on checked arithmetic. -/
inductive CommonErr where
  | u64ConvertFail : CommonErr
  | rustPanic : String → CommonErr
  deriving DecidableEq, Repr

/-- Embeds amount_with_slippage from common_utils.rs lines 28-46.  The amount and
slippage_bps arguments are u64 in the source, widened to u128 before the checked
arithmetic; checked_add / checked_mul / checked_sub are unwrapped (abort on
overflow or underflow), checked_div by TEN_THOUSAND cannot fail, and the final
u64::try_from failure is the Err return of the function. -/
def amount_with_slippage (amount slippage_bps : Nat) (up_towards : Bool) : Except CommonErr Nat :=
  if up_towards then
    if slippage_bps + TEN_THOUSAND ≥ U128_MOD then .error (.rustPanic "checked_add overflow")
    else if amount * (slippage_bps + TEN_THOUSAND) ≥ U128_MOD then
      .error (.rustPanic "checked_mul overflow")
    else if amount * (slippage_bps + TEN_THOUSAND) / TEN_THOUSAND < U64_MOD then
      .ok (amount * (slippage_bps + TEN_THOUSAND) / TEN_THOUSAND)
    else .error .u64ConvertFail
  else
    if TEN_THOUSAND < slippage_bps then .error (.rustPanic "checked_sub underflow")
    else if amount * (TEN_THOUSAND - slippage_bps) ≥ U128_MOD then
      .error (.rustPanic "checked_mul overflow")
    else if amount * (TEN_THOUSAND - slippage_bps) / TEN_THOUSAND < U64_MOD then
      .ok (amount * (TEN_THOUSAND - slippage_bps) / TEN_THOUSAND)
    else .error .u64ConvertFail

/-- MAX_FEE_BASIS_POINTS of spl_token_2022 (u16 in the source). -/
def MAX_FEE_BASIS_POINTS : Nat := 10000

/-- One epoch generation of a transfer-fee record: epoch, maximum_fee and
transfer_fee_basis_points, as carried by the spl TransferFeeConfig extension. -/
structure TransferFee where
  epoch : Nat
  maximum_fee : Nat
  transfer_fee_basis_points : Nat
  deriving DecidableEq, Repr

/-- The transfer-fee extension of a mint: two epoch generations. -/
structure TransferFeeConfig where
  older_transfer_fee : TransferFee
  newer_transfer_fee : TransferFee
  deriving DecidableEq, Repr

/-- Modelled from the spec: spl_token_2022 TransferFeeConfig::get_epoch_fee is
external to this repository; spec section 6 describes "epoch-indexed
transfer-fee-config records (two generations: older and newer, selected by
comparing the config epoch to the current epoch)". -/
def TransferFeeConfig.get_epoch_fee (c : TransferFeeConfig) (epoch : Nat) : TransferFee :=
  if c.newer_transfer_fee.epoch ≤ epoch then c.newer_transfer_fee else c.older_transfer_fee

/-- Modelled from the spec: the per-generation inverse fee of spl_token_2022 is
external to this repository; spec section 4.3: when bps is MAX_BPS the fee is
always maximum_fee, otherwise solve pre = post * 10000 / (10000 - bps)
(ceiling division) then fee = pre - post, clamped to maximum_fee. -/
def TransferFee.inverse_fee (tf : TransferFee) (post_fee_amount : Nat) : Nat :=
  if MAX_FEE_BASIS_POINTS ≤ tf.transfer_fee_basis_points then tf.maximum_fee
  else
    let d := TEN_THOUSAND - tf.transfer_fee_basis_points
    let pre := (post_fee_amount * TEN_THOUSAND + d - 1) / d
    min (pre - post_fee_amount) tf.maximum_fee

/-- Modelled from the spec: spl_token_2022 calculate_inverse_epoch_fee selects
the fee generation active at the epoch and computes its inverse fee. -/
def TransferFeeConfig.calculate_inverse_epoch_fee
    (c : TransferFeeConfig) (epoch post_fee_amount : Nat) : Nat :=
  (c.get_epoch_fee epoch).inverse_fee post_fee_amount

/-- Embeds get_transfer_inverse_fee from common_utils.rs lines 133-151: a mint
without the transfer-fee extension (cfg = none) yields 0; with the extension,
if the basis points of the fee active at the epoch equal MAX_FEE_BASIS_POINTS
the result is that maximum_fee, otherwise spl calculate_inverse_epoch_fee. -/
def get_transfer_inverse_fee (cfg : Option TransferFeeConfig) (epoch post_fee_amount : Nat) : Nat :=
  match cfg with
  | none => 0
  | some c =>
    let transfer_fee := c.get_epoch_fee epoch
    if transfer_fee.transfer_fee_basis_points = MAX_FEE_BASIS_POINTS then transfer_fee.maximum_fee
    else c.calculate_inverse_epoch_fee epoch post_fee_amount

/-- Embeds the exact-output (base_in = false) tail of calculate_swap_change,
clmm_utils.rs lines 327-342: the raw threshold returned by
get_out_put_amount_and_remaining_accounts is first widened by
amount_with_slippage(.., true), then the inverse transfer fee of the widened
amount is added with a plain u64 += (wrapping in release builds, modelled as
mod 2 to the 64). -/
def clmm_exact_out_threshold
    (cfg : Option TransferFeeConfig) (epoch raw slippage_bps : Nat) : Except CommonErr Nat :=
  match amount_with_slippage raw slippage_bps true with
  | .error e => .error e
  | .ok t => .ok ((t + get_transfer_inverse_fee cfg epoch t) % U64_MOD)

/-- Embeds the exact-output (base_in = false) tail of swap_calculate,
cpswap_utils.rs lines 372-395: the inverse transfer fee of
source_amount_swapped is added first with checked_add (unwrap aborts on u64
overflow), and amount_with_slippage(.., true) is applied to that sum. -/
def cpswap_exact_out_threshold
    (cfg : Option TransferFeeConfig) (epoch source_amount_swapped slippage_bps : Nat) :
    Except CommonErr Nat :=
  let fee := get_transfer_inverse_fee cfg epoch source_amount_swapped
  if source_amount_swapped + fee ≥ U64_MOD then .error (.rustPanic "checked_add overflow")
  else amount_with_slippage (source_amount_swapped + fee) slippage_bps true

/-- Swap direction of the raydium_amm constant-product pool. -/
inductive SwapDirection where
  | Coin2PC : SwapDirection
  | PC2Coin : SwapDirection
  deriving DecidableEq, Repr

/-- Modelled from the spec: raydium_amm Calculator::swap_token_amount_base_in is
external to this repository; spec section 4.2: out = reserve_out -
reserve_in * reserve_out / (reserve_in + amount_in_after_fee), direction
selected (Coin2PC: coin is the input reserve, pc the output reserve). -/
def swap_token_amount_base_in
    (amount_in pc_vault_amount coin_vault_amount : Nat) (dir : SwapDirection) : Nat :=
  match dir with
  | .Coin2PC =>
    pc_vault_amount - coin_vault_amount * pc_vault_amount / (coin_vault_amount + amount_in)
  | .PC2Coin =>
    coin_vault_amount - pc_vault_amount * coin_vault_amount / (pc_vault_amount + amount_in)

/-- Modelled from the spec: raydium_amm Calculator::swap_token_amount_base_out is
external to this repository; spec section 4.2: "invert the curve to find
amount_in_before_fee" - the constant-product inversion, ceiling-rounded:
in = ceil(reserve_in * amount_out / (reserve_out - amount_out)). -/
def swap_token_amount_base_out
    (amount_out pc_vault_amount coin_vault_amount : Nat) (dir : SwapDirection) : Nat :=
  match dir with
  | .Coin2PC =>
    (coin_vault_amount * amount_out + (pc_vault_amount - amount_out) - 1)
      / (pc_vault_amount - amount_out)
  | .PC2Coin =>
    (pc_vault_amount * amount_out + (coin_vault_amount - amount_out) - 1)
      / (coin_vault_amount - amount_out)

/-- Modelled from the spec: the CheckedCeilDiv of raydium_amm is external to this
repository; spec section 4.1: ceil_div(a, b) returns the ceiling of a / b and
fails when b = 0. -/
def checked_ceil_div (a b : Nat) : Option Nat :=
  if b = 0 then none else some ((a + b - 1) / b)

/-- Embeds swap_exact_amount from amm_math.rs lines 93-140.  swap_base_in: the
fee ceil_div(amount * num, den) is subtracted from the input (checked ops,
unwrap aborts), the curve is applied, and as_u64 aborts above the u64 range.
Exact output (swap_base_in = false): the curve is inverted, then the input is
grossed up by checked_mul(den) followed by checked_ceil_div(den - num). -/
def swap_exact_amount
    (pc_vault_amount coin_vault_amount swap_fee_numerator swap_fee_denominator : Nat)
    (swap_direction : SwapDirection) (amount_specified : Nat) (swap_base_in : Bool) :
    Except CommonErr Nat :=
  if swap_base_in then
    if amount_specified * swap_fee_numerator ≥ U128_MOD then
      .error (.rustPanic "checked_mul overflow")
    else
      match checked_ceil_div (amount_specified * swap_fee_numerator) swap_fee_denominator with
      | none => .error (.rustPanic "checked_ceil_div by zero")
      | some swap_fee =>
        if amount_specified < swap_fee then .error (.rustPanic "checked_sub underflow")
        else
          let out := swap_token_amount_base_in (amount_specified - swap_fee)
            pc_vault_amount coin_vault_amount swap_direction
          if out < U64_MOD then .ok out else .error (.rustPanic "as_u64 overflow")
  else
    let before := swap_token_amount_base_out amount_specified
      pc_vault_amount coin_vault_amount swap_direction
    if before * swap_fee_denominator ≥ U128_MOD then .error (.rustPanic "checked_mul overflow")
    else if swap_fee_denominator < swap_fee_numerator then
      .error (.rustPanic "checked_sub underflow")
    else
      match checked_ceil_div (before * swap_fee_denominator)
          (swap_fee_denominator - swap_fee_numerator) with
      | none => .error (.rustPanic "checked_ceil_div by zero")
      | some q => if q < U64_MOD then .ok q else .error (.rustPanic "as_u64 overflow")

example : amount_with_slippage 100 10001 false = .error (.rustPanic "checked_sub underflow") := rfl
example : amount_with_slippage 1000 50 true = .ok 1005 := rfl
example : amount_with_slippage 1000 50 false = .ok 995 := rfl
example :
    swap_exact_amount 1000000 1000000 25 10000 .Coin2PC 1000 false = .ok 1005 := rfl

/-- MIN_TICK of raydium_amm_v3 tick_math (external constant). -/
def MIN_TICK : Int := -443636

/-- MAX_TICK of raydium_amm_v3 tick_math (external constant). -/
def MAX_TICK : Int := 443636

/-- MIN_SQRT_PRICE_X64 of raydium_amm_v3 tick_math (external constant). -/
def MIN_SQRT_PRICE_X64 : Nat := 4295048016

/-- MAX_SQRT_PRICE_X64 of raydium_amm_v3 tick_math (external constant). -/
def MAX_SQRT_PRICE_X64 : Nat := 79226673521066979257578248091

/-- The fields of a raydium_amm_v3 TickState that swap_compute reads: the tick
index, the signed liquidity_net applied on a crossing, and liquidity_gross,
whose non-zeroness is the initialized test. -/
structure TickState where
  tick : Int
  liquidity_net : Int
  liquidity_gross : Nat
  deriving DecidableEq, Repr

/-- Modelled from the spec: TickState::is_initialized of raydium_amm_v3 is
external to this repository; a tick is initialized when its liquidity_gross is
non-zero, and the Default TickState (all zero) is uninitialized. -/
def TickState.is_init (t : TickState) : Bool := t.liquidity_gross ≠ 0

/-- The Default TickState: all fields zero. -/
def TickState.dflt : TickState := ⟨0, 0, 0⟩

/-- A raydium_amm_v3 TickArrayState as used by swap_compute: its
start_tick_index plus its two tick queries, next_initialized_tick (from a tick
in a direction; may find none inside the array) and first_initialized_tick.
Both queries are methods of the external raydium_amm_v3 crate and are carried
here as function-valued fields, modelled from the spec. -/
structure TickArrayState where
  start_tick_index : Int
  next_init_tick : Int → Nat → Bool → Except String (Option TickState)
  first_init_tick : Bool → Except String TickState

/-- The PoolState fields swap_compute reads. -/
structure PoolState where
  tick_current : Int
  tick_spacing : Nat
  liquidity : Nat
  sqrt_price_x64 : Nat
  deriving DecidableEq, Repr

/-- The result record of raydium_amm_v3 swap_math::compute_swap_step. -/
structure SwapStepResult where
  sqrt_price_next_x64 : Nat
  amount_in : Nat
  amount_out : Nat
  fee_amount : Nat
  deriving DecidableEq, Repr

/-- Modelled from the spec: the external raydium_amm_v3 library functions that
swap_compute calls, gathered as an environment so that theorems hold for every
behaviour of the external crate.  Fields: the pool bitmap query
next_initialized_tick_array_start_index (of the queried start index and the
direction), tick_math::get_sqrt_price_at_tick, tick_math::get_tick_at_sqrt_price,
swap_math::compute_swap_step (current price, target price, liquidity, amount
remaining, fee rate, is_base_input, zero_for_one, block timestamp), and
liquidity_math::add_delta. -/
structure ClmmEnv where
  next_init_tick_array_start_index : Int → Bool → Except String (Option Int)
  get_sqrt_price_at_tick : Int → Except String Nat
  get_tick_at_sqrt_price : Nat → Except String Int
  compute_swap_step :
    Nat → Nat → Nat → Nat → Nat → Bool → Bool → Nat → Except String SwapStepResult
  add_delta : Nat → Int → Except String Nat

/-- The SwapState record of libraries/src/clmm/types.rs lines 61-72. -/
structure SwapState where
  amount_specified_remaining : Nat
  amount_calculated : Nat
  sqrt_price_x64 : Nat
  tick : Int
  liquidity : Nat
  deriving DecidableEq, Repr

/-- The error outcomes of swap_compute.  The first eight constructors stand for
the eight static error strings returned by the source; rustPanic stands for a
Rust unwrap abort inside the function (including unwraps of external-crate
results). -/
inductive SwapErr where
  | amountZero : SwapErr
  | limitBelowMin : SwapErr
  | limitNotBelowCurrent : SwapErr
  | limitAboveMax : SwapErr
  | limitNotAboveCurrent : SwapErr
  | loopCountLimit : SwapErr
  | outOfRangeLimit : SwapErr
  | startIndexMismatch : SwapErr
  | rustPanic : String → SwapErr
  deriving DecidableEq, Repr

/-- Lifts an external-crate result to the swap error type: the source unwraps
such results, so an Err becomes an unwrap abort. -/
def punwrap {α : Type} : Except String α → Except SwapErr α
  | .ok a => .ok a
  | .error m => .error (.rustPanic m)

/-- True exactly on the errors that the traversal loop of swap_compute can
produce (the pre-loop validation errors are excluded). -/
def SwapErr.isLoopErr : SwapErr → Bool
  | .loopCountLimit => true
  | .outOfRangeLimit => true
  | .startIndexMismatch => true
  | .rustPanic _ => true
  | _ => false

/-- Embeds clmm_utils.rs lines 522-539: select next_initialized_tick from the
current tick array; when none is found and the current-tick-array flag is not
yet set, set it and take first_initialized_tick of the same array, otherwise
fall back to the Default (uninitialized) TickState. -/
def nextTickStage (tac : TickArrayState) (tick : Int) (tick_spacing : Nat)
    (zero_for_one tick_match : Bool) : Except SwapErr (TickState × Bool) :=
  (punwrap (tac.next_init_tick tick tick_spacing zero_for_one)).bind fun r =>
    match r with
    | some ts => .ok (ts, tick_match)
    | none =>
      if tick_match then .ok (TickState.dflt, tick_match)
      else (punwrap (tac.first_init_tick zero_for_one)).bind fun f => .ok (f, true)

/-- Embeds clmm_utils.rs lines 540-562: when the selected tick is uninitialized,
query the next initialized tick-array start index (note: the source shadows
the loop-invariant start index with a block-local let, so the query argument is
the original index on every crossing), pop the next staged array (unwrap abort
when none is staged), fail when the bitmap reports no further array, fail when
the popped array start index differs from the reported one, record the index
and take the first initialized tick of the popped array. -/
def advanceStage (env : ClmmEnv) (cvidx : Int) (zero_for_one : Bool) (nit0 : TickState)
    (tac : TickArrayState) (tas : List TickArrayState) (visited : List Int) :
    Except SwapErr (TickState × TickArrayState × List TickArrayState × List Int) :=
  if nit0.is_init then .ok (nit0, tac, tas, visited)
  else
    (punwrap (env.next_init_tick_array_start_index cvidx zero_for_one)).bind fun nextIdxOpt =>
      match tas with
      | [] => .error (.rustPanic "pop_front on empty VecDeque")
      | a :: rest =>
        match nextIdxOpt with
        | none => .error .outOfRangeLimit
        | some idx =>
          if a.start_tick_index ≠ idx then .error .startIndexMismatch
          else
            (punwrap (a.first_init_tick zero_for_one)).bind fun f =>
              .ok (f, a, rest, visited ++ [a.start_tick_index])

/-- Embeds clmm_utils.rs lines 595-617: subtract the consumed leg from
amount_specified_remaining and add the produced leg to amount_calculated, with
checked_sub and checked_add unwraps; the inner amount_in + fee_amount is a
plain u64 add (wrapping in release builds, modelled as mod 2 to the 64). -/
def amountStage (is_base_input : Bool) (ss : SwapStepResult) (st : SwapState) :
    Except SwapErr SwapState :=
  if is_base_input then
    if st.amount_specified_remaining < (ss.amount_in + ss.fee_amount) % U64_MOD then
      .error (.rustPanic "checked_sub underflow")
    else if st.amount_calculated + ss.amount_out ≥ U64_MOD then
      .error (.rustPanic "checked_add overflow")
    else .ok { st with
      amount_specified_remaining :=
        st.amount_specified_remaining - (ss.amount_in + ss.fee_amount) % U64_MOD,
      amount_calculated := st.amount_calculated + ss.amount_out }
  else
    if st.amount_specified_remaining < ss.amount_out then
      .error (.rustPanic "checked_sub underflow")
    else if st.amount_calculated + (ss.amount_in + ss.fee_amount) % U64_MOD ≥ U64_MOD then
      .error (.rustPanic "checked_add overflow")
    else .ok { st with
      amount_specified_remaining := st.amount_specified_remaining - ss.amount_out,
      amount_calculated :=
        st.amount_calculated + (ss.amount_in + ss.fee_amount) % U64_MOD }

/-- Embeds clmm_utils.rs lines 618-634: when the step ended exactly on the next
tick price, cross the tick (apply liquidity_net, negated for zero_for_one, when
the tick is initialized) and step the current tick past the boundary; otherwise,
when the price moved at all, recompute the current tick from the price. -/
def tickTransitionStage (env : ClmmEnv) (zero_for_one step_init : Bool) (nit : TickState)
    (step_tick_next : Int) (step_sqrt_price_next step_sqrt_price_start : Nat)
    (st : SwapState) : Except SwapErr SwapState :=
  if st.sqrt_price_x64 = step_sqrt_price_next then
    (if step_init then
      punwrap (env.add_delta st.liquidity
        (if zero_for_one then -nit.liquidity_net else nit.liquidity_net))
    else .ok st.liquidity).bind fun l =>
      .ok { st with liquidity := l,
                    tick := if zero_for_one then step_tick_next - 1 else step_tick_next }
  else if st.sqrt_price_x64 ≠ step_sqrt_price_start then
    (punwrap (env.get_tick_at_sqrt_price st.sqrt_price_x64)).bind fun t =>
      .ok { st with tick := t }
  else .ok st

/-- One iteration of the traversal loop of swap_compute (clmm_utils.rs lines
519-635, everything between the loop-count check and the loop_count increment):
returns the updated swap state, current-tick-array flag, current tick array,
remaining staged arrays and visited start-index list. -/
def swapBody (env : ClmmEnv) (pool : PoolState) (zero_for_one is_base_input : Bool)
    (trade_fee_rate : Nat) (cvidx : Int) (sqrt_price_limit_x64 : Nat) (state : SwapState)
    (tick_match : Bool) (tac : TickArrayState) (tas : List TickArrayState)
    (visited : List Int) :
    Except SwapErr (SwapState × Bool × TickArrayState × List TickArrayState × List Int) :=
  let step_sqrt_price_start := state.sqrt_price_x64
  (nextTickStage tac state.tick pool.tick_spacing zero_for_one tick_match).bind fun nt =>
    (advanceStage env cvidx zero_for_one nt.1 tac tas visited).bind fun adv =>
      let nit := adv.1
      let step_init := nit.is_init
      let step_tick_next :=
        if nit.tick < MIN_TICK then MIN_TICK
        else if MAX_TICK < nit.tick then MAX_TICK
        else nit.tick
      (punwrap (env.get_sqrt_price_at_tick step_tick_next)).bind fun step_sqrt_price_next =>
        let target_price :=
          if (zero_for_one = true ∧ step_sqrt_price_next < sqrt_price_limit_x64)
              ∨ (zero_for_one = false ∧ sqrt_price_limit_x64 < step_sqrt_price_next) then
            sqrt_price_limit_x64
          else step_sqrt_price_next
        (punwrap (env.compute_swap_step state.sqrt_price_x64 target_price
            state.liquidity state.amount_specified_remaining trade_fee_rate
            is_base_input zero_for_one 1)).bind fun ss =>
          (amountStage is_base_input ss
              { state with sqrt_price_x64 := ss.sqrt_price_next_x64 }).bind fun st2 =>
            (tickTransitionStage env zero_for_one step_init nit step_tick_next
                step_sqrt_price_next step_sqrt_price_start st2).bind fun st3 =>
              .ok (st3, nt.2, adv.2.1, adv.2.2.1, adv.2.2.2)

/-- The traversal loop of swap_compute, clmm_utils.rs lines 513-637: while amount
remains, the limit price is not reached and the tick is inside
(MIN_TICK, MAX_TICK), abort with the loop-count error once loop_count exceeds
10, otherwise run the body and continue with loop_count + 1.  The loop-count
guard bounds the iterations by 12, so a structural fuel of 12 (threaded with
fuel + loop_count = 12 from swap_compute) makes the fuel-exhaustion branch
unreachable; it is kept total by returning the loop-count error there.  The
successful result carries the final state, the visited start-index list and the
final loop_count, which equals the number of iterations performed. -/
def swapLoop (env : ClmmEnv) (pool : PoolState) (zero_for_one is_base_input : Bool)
    (trade_fee_rate : Nat) (cvidx : Int) (sqrt_price_limit_x64 : Nat) :
    Nat → Nat → SwapState → Bool → TickArrayState → List TickArrayState → List Int →
    Except SwapErr (SwapState × List Int × Nat)
  | 0, _, _, _, _, _, _ => .error .loopCountLimit
  | fuel + 1, loop_count, state, tick_match, tac, tas, visited =>
    if state.amount_specified_remaining ≠ 0
        ∧ state.sqrt_price_x64 ≠ sqrt_price_limit_x64
        ∧ state.tick < MAX_TICK ∧ MIN_TICK < state.tick then
      if 10 < loop_count then .error .loopCountLimit
      else
        (swapBody env pool zero_for_one is_base_input trade_fee_rate cvidx
            sqrt_price_limit_x64 state tick_match tac tas visited).bind fun r =>
          swapLoop env pool zero_for_one is_base_input trade_fee_rate cvidx
            sqrt_price_limit_x64 fuel (loop_count + 1) r.1 r.2.1 r.2.2.1 r.2.2.2.1 r.2.2.2.2
    else .ok (state, visited, loop_count)

/-- Embeds the price-limit substitution of swap_compute, clmm_utils.rs lines
469-477: a zero sqrt_price_limit_x64 is replaced by the directional extreme,
MIN_SQRT_PRICE_X64 + 1 for zero_for_one and MAX_SQRT_PRICE_X64 - 1 otherwise. -/
def effective_limit (zero_for_one : Bool) (sqrt_price_limit_x64 : Nat) : Nat :=
  if sqrt_price_limit_x64 = 0 then
    if zero_for_one then MIN_SQRT_PRICE_X64 + 1 else MAX_SQRT_PRICE_X64 - 1
  else sqrt_price_limit_x64

/-- Embeds swap_compute from clmm_utils.rs lines 455-637, with the final
loop_count exposed alongside the source result: reject a zero amount,
substitute the directional extreme for a zero price limit, validate the limit
against MIN_SQRT_PRICE_X64 / MAX_SQRT_PRICE_X64 and the pool current price, pop
the first staged tick array (unwrap abort when none), require its start index
to equal the supplied one, seed the visited list with it and run the loop. -/
def swap_compute_traced (env : ClmmEnv) (zero_for_one is_base_input : Bool)
    (is_pool_current_tick_array : Bool) (trade_fee_rate amount_specified : Nat)
    (current_vaild_tick_array_start_index : Int) (sqrt_price_limit_x64 : Nat)
    (pool : PoolState) (tick_arrays : List TickArrayState) :
    Except SwapErr (SwapState × List Int × Nat) :=
  if amount_specified = 0 then .error .amountZero
  else
    if zero_for_one = true
        ∧ effective_limit zero_for_one sqrt_price_limit_x64 < MIN_SQRT_PRICE_X64 then
      .error .limitBelowMin
    else if zero_for_one = true
        ∧ pool.sqrt_price_x64 ≤ effective_limit zero_for_one sqrt_price_limit_x64 then
      .error .limitNotBelowCurrent
    else if zero_for_one = false
        ∧ MAX_SQRT_PRICE_X64 < effective_limit zero_for_one sqrt_price_limit_x64 then
      .error .limitAboveMax
    else if zero_for_one = false
        ∧ effective_limit zero_for_one sqrt_price_limit_x64 ≤ pool.sqrt_price_x64 then
      .error .limitNotAboveCurrent
    else
      match tick_arrays with
      | [] => .error (.rustPanic "pop_front on empty VecDeque")
      | tac :: rest =>
        if tac.start_tick_index ≠ current_vaild_tick_array_start_index then
          .error .startIndexMismatch
        else
          swapLoop env pool zero_for_one is_base_input trade_fee_rate
            current_vaild_tick_array_start_index
            (effective_limit zero_for_one sqrt_price_limit_x64) 12 0
            ⟨amount_specified, 0, pool.sqrt_price_x64, pool.tick_current, pool.liquidity⟩
            is_pool_current_tick_array tac rest [tac.start_tick_index]

/-- The source swap_compute result: the amount calculated and the visited
tick-array start-index list (the traced loop count projected away). -/
def swap_compute (env : ClmmEnv) (zero_for_one is_base_input : Bool)
    (is_pool_current_tick_array : Bool) (trade_fee_rate amount_specified : Nat)
    (current_vaild_tick_array_start_index : Int) (sqrt_price_limit_x64 : Nat)
    (pool : PoolState) (tick_arrays : List TickArrayState) :
    Except SwapErr (Nat × List Int) :=
  match swap_compute_traced env zero_for_one is_base_input is_pool_current_tick_array
      trade_fee_rate amount_specified current_vaild_tick_array_start_index
      sqrt_price_limit_x64 pool tick_arrays with
  | .error e => .error e
  | .ok (st, vis, _) => .ok (st.amount_calculated, vis)

/-- A concrete initialized tick used to exercise swap_compute. -/
def cexTick : TickState := ⟨-100, 0, 1⟩

/-- A concrete staged tick array whose queries always find cexTick. -/
def cexArray : TickArrayState :=
  ⟨0, fun _ _ _ => .ok (some cexTick), fun _ => .ok cexTick⟩

/-- A concrete environment: the bitmap reports no further array, every tick
price is MIN_SQRT_PRICE_X64 + 50, and each swap step leaves the price unchanged
while consuming one unit of input with no fee and no output. -/
def cexEnv : ClmmEnv :=
  ⟨fun _ _ => .ok none,
   fun _ => .ok (MIN_SQRT_PRICE_X64 + 50),
   fun _ => .ok 0,
   fun sp _ _ _ _ _ _ _ => .ok ⟨sp, 1, 0, 0⟩,
   fun l _ => .ok l⟩

/-- A concrete pool whose current sqrt price sits 100 above the minimum. -/
def cexPool : PoolState := ⟨0, 1, 1, MIN_SQRT_PRICE_X64 + 100⟩

/-- A concrete pool whose current sqrt price is exactly MIN_SQRT_PRICE_X64 + 1. -/
def cexPool2 : PoolState := ⟨0, 1, 1, MIN_SQRT_PRICE_X64 + 1⟩

example :
    swap_compute_traced cexEnv true true true 0 11 0 0 cexPool [cexArray]
      = .ok (⟨0, 0, MIN_SQRT_PRICE_X64 + 100, 0, 1⟩, [0], 11) := rfl

example :
    swap_compute_traced cexEnv true true true 0 12 0 0 cexPool [cexArray]
      = .error .loopCountLimit := rfl

example :
    swap_compute cexEnv true true true 0 1 0 MIN_SQRT_PRICE_X64 cexPool [cexArray]
      = .ok (0, [0]) := rfl

example :
    swap_compute cexEnv true true true 0 1 0 0 cexPool2 [cexArray]
      = .error .limitNotBelowCurrent := rfl

lemma punwrap_error {α : Type} {x : Except String α} {e : SwapErr}
    (h : punwrap x = .error e) : ∃ m, e = SwapErr.rustPanic m := by
  cases x with
  | ok a => simp [punwrap] at h
  | error m => simp only [punwrap, Except.error.injEq] at h; exact ⟨m, h.symm⟩

lemma punwrap_ok {α : Type} {x : Except String α} {a : α}
    (h : punwrap x = .ok a) : x = .ok a := by
  cases x with
  | ok b => simpa [punwrap] using h
  | error m => simp [punwrap] at h

lemma isLoopErr_rustPanic (m : String) : (SwapErr.rustPanic m).isLoopErr = true := rfl

lemma exbind_ok {α β : Type} {x : Except SwapErr α} {f : α → Except SwapErr β} {b : β}
    (h : (x.bind f) = .ok b) : ∃ a, x = .ok a ∧ f a = .ok b := by
  cases x with
  | error e => simp [Except.bind] at h
  | ok a => exact ⟨a, rfl, by simpa [Except.bind] using h⟩

lemma exbind_error {α β : Type} {x : Except SwapErr α} {f : α → Except SwapErr β} {e : SwapErr}
    (h : (x.bind f) = .error e) : x = .error e ∨ ∃ a, x = .ok a ∧ f a = .error e := by
  cases x with
  | error e1 => left; simpa [Except.bind] using congrArg (fun t => t) h
  | ok a => right; exact ⟨a, rfl, by simpa [Except.bind] using h⟩

lemma nextTickStage_error {tac : TickArrayState} {t : Int} {sp : Nat} {zfo tm : Bool}
    {e : SwapErr} (h : nextTickStage tac t sp zfo tm = .error e) : e.isLoopErr = true := by
  unfold nextTickStage at h
  rcases exbind_error h with h1 | ⟨r, hr, h2⟩
  · obtain ⟨m, rfl⟩ := punwrap_error h1
    rfl
  · rcases r with _ | ts
    · by_cases htm : tm = true
      · simp [htm] at h2
      · simp only [Bool.not_eq_true] at htm
        simp only [htm, Bool.false_eq_true, if_false] at h2
        rcases exbind_error h2 with h3 | ⟨f, hf, h4⟩
        · obtain ⟨m, rfl⟩ := punwrap_error h3
          rfl
        · simp at h4
    · simp at h2


lemma advanceStage_error {env : ClmmEnv} {cvidx : Int} {zfo : Bool} {nit0 : TickState}
    {tac : TickArrayState} {tas : List TickArrayState} {visited : List Int} {e : SwapErr}
    (h : advanceStage env cvidx zfo nit0 tac tas visited = .error e) : e.isLoopErr = true := by
  unfold advanceStage at h
  by_cases hinit : nit0.is_init = true
  · simp [hinit] at h
  · simp only [Bool.not_eq_true] at hinit
    simp only [hinit, Bool.false_eq_true, if_false] at h
    rcases exbind_error h with h1 | ⟨nOpt, hN, h2⟩
    · obtain ⟨m, rfl⟩ := punwrap_error h1
      rfl
    · rcases tas with _ | ⟨a, rest⟩
      · injection h2 with h3
        subst h3
        rfl
      · rcases nOpt with _ | idx
        · injection h2 with h3
          subst h3
          rfl
        · by_cases hne : a.start_tick_index = idx
          · simp only [ne_eq, hne, not_true_eq_false, if_false] at h2
            rcases exbind_error h2 with h3 | ⟨f, hf, h4⟩
            · obtain ⟨m, rfl⟩ := punwrap_error h3
              rfl
            · simp at h4
          · simp only [ne_eq, hne, not_false_eq_true, if_true] at h2
            injection h2 with h3
            subst h3
            rfl

lemma advanceStage_ok {env : ClmmEnv} {cvidx : Int} {zfo : Bool} {nit0 nit : TickState}
    {tac tac1 : TickArrayState} {tas tas1 : List TickArrayState} {visited vis1 : List Int}
    (h : advanceStage env cvidx zfo nit0 tac tas visited = .ok (nit, tac1, tas1, vis1)) :
    (vis1 = visited ∧ tas1 = tas) ∨
      (∃ a rest, tas = a :: rest ∧ tas1 = rest ∧ vis1 = visited ++ [a.start_tick_index] ∧
        env.next_init_tick_array_start_index cvidx zfo = .ok (some a.start_tick_index)) := by
  unfold advanceStage at h
  by_cases hinit : nit0.is_init = true
  · simp only [hinit, if_true, Except.ok.injEq, Prod.mk.injEq] at h
    exact Or.inl ⟨h.2.2.2.symm, h.2.2.1.symm⟩
  · simp only [Bool.not_eq_true] at hinit
    simp only [hinit, Bool.false_eq_true, if_false] at h
    rcases exbind_ok h with ⟨nOpt, hN, h2⟩
    rcases tas with _ | ⟨a, rest⟩
    · simp at h2
    · rcases nOpt with _ | idx
      · simp at h2
      · by_cases hne : a.start_tick_index = idx
        · subst hne
          dsimp only [] at h2
          rw [if_neg (show ¬(a.start_tick_index ≠ a.start_tick_index) by simp)] at h2
          rcases exbind_ok h2 with ⟨f, hf, h3⟩
          simp only [Except.ok.injEq, Prod.mk.injEq] at h3
          exact Or.inr ⟨a, rest, rfl, h3.2.2.1.symm, h3.2.2.2.symm, punwrap_ok hN⟩
        · simp only [ne_eq, hne, not_false_eq_true, if_true] at h2
          simp at h2

lemma amountStage_error {ibi : Bool} {ss : SwapStepResult} {st : SwapState} {e : SwapErr}
    (h : amountStage ibi ss st = .error e) : e.isLoopErr = true := by
  unfold amountStage at h
  split at h <;> split at h <;> try split at h
  all_goals first
    | (injection h with h1; subst h1; rfl)
    | (exact absurd h (by simp))

lemma tickTransitionStage_error {env : ClmmEnv} {zfo si : Bool} {nit : TickState}
    {stn : Int} {spn sps : Nat} {st : SwapState} {e : SwapErr}
    (h : tickTransitionStage env zfo si nit stn spn sps st = .error e) : e.isLoopErr = true := by
  unfold tickTransitionStage at h
  split at h
  · rcases exbind_error h with h1 | ⟨l, hl, h2⟩
    · split at h1
      · obtain ⟨m, rfl⟩ := punwrap_error h1
        rfl
      · simp at h1
    · simp at h2
  · split at h
    · rcases exbind_error h with h1 | ⟨t, ht, h2⟩
      · obtain ⟨m, rfl⟩ := punwrap_error h1
        rfl
      · simp at h2
    · simp at h

lemma swapBody_error {env : ClmmEnv} {pool : PoolState} {zfo ibi : Bool} {tfr : Nat}
    {cvidx : Int} {lim : Nat} {state : SwapState} {tm : Bool} {tac : TickArrayState}
    {tas : List TickArrayState} {vis : List Int} {e : SwapErr}
    (h : swapBody env pool zfo ibi tfr cvidx lim state tm tac tas vis = .error e) :
    e.isLoopErr = true := by
  unfold swapBody at h
  rcases exbind_error h with h1 | ⟨nt, hnt, h2⟩
  · exact nextTickStage_error h1
  · rcases exbind_error h2 with h3 | ⟨adv, hadv, h4⟩
    · exact advanceStage_error h3
    · rcases exbind_error h4 with h5 | ⟨spn, hspn, h6⟩
      · obtain ⟨m, rfl⟩ := punwrap_error h5
        rfl
      · rcases exbind_error h6 with h7 | ⟨ss, hss, h8⟩
        · obtain ⟨m, rfl⟩ := punwrap_error h7
          rfl
        · rcases exbind_error h8 with h9 | ⟨st2, hst2, h10⟩
          · exact amountStage_error h9
          · rcases exbind_error h10 with h11 | ⟨st3, hst3, h12⟩
            · exact tickTransitionStage_error h11
            · simp at h12

lemma swapBody_vis {env : ClmmEnv} {pool : PoolState} {zfo ibi : Bool} {tfr : Nat}
    {cvidx : Int} {lim : Nat} {state : SwapState} {tm : Bool} {tac : TickArrayState}
    {tas : List TickArrayState} {vis : List Int} {st3 : SwapState} {tm1 : Bool}
    {tac1 : TickArrayState} {tas1 : List TickArrayState} {vis1 : List Int}
    (h : swapBody env pool zfo ibi tfr cvidx lim state tm tac tas vis
      = .ok (st3, tm1, tac1, tas1, vis1)) :
    (vis1 = vis ∧ tas1 = tas) ∨
      (∃ a rest, tas = a :: rest ∧ tas1 = rest ∧ vis1 = vis ++ [a.start_tick_index] ∧
        env.next_init_tick_array_start_index cvidx zfo = .ok (some a.start_tick_index)) := by
  unfold swapBody at h
  rcases exbind_ok h with ⟨nt, hnt, h2⟩
  rcases exbind_ok h2 with ⟨adv, hadv, h4⟩
  rcases exbind_ok h4 with ⟨spn, hspn, h6⟩
  rcases exbind_ok h6 with ⟨ss, hss, h8⟩
  rcases exbind_ok h8 with ⟨st2, hst2, h10⟩
  rcases exbind_ok h10 with ⟨st3x, hst3, h12⟩
  simp only [Except.ok.injEq, Prod.mk.injEq] at h12
  obtain ⟨-, -, -, htas, hvis⟩ := h12
  have hadv4 : advanceStage env cvidx zfo nt.1 tac tas vis
      = .ok (adv.1, adv.2.1, adv.2.2.1, adv.2.2.2) := hadv
  rcases advanceStage_ok hadv4 with ⟨hv, ht⟩ | ⟨a, rest, hcons, ht, hv, hq⟩
  · exact Or.inl ⟨hvis ▸ hv, htas ▸ ht⟩
  · exact Or.inr ⟨a, rest, hcons, htas ▸ ht, hvis ▸ hv, hq⟩

lemma swapLoop_error {env : ClmmEnv} {pool : PoolState} {zfo ibi : Bool} {tfr : Nat}
    {cvidx : Int} {lim : Nat} :
    ∀ (fuel lc : Nat) (state : SwapState) (tm : Bool) (tac : TickArrayState)
      (tas : List TickArrayState) (vis : List Int) (e : SwapErr),
      swapLoop env pool zfo ibi tfr cvidx lim fuel lc state tm tac tas vis = .error e →
      e.isLoopErr = true := by
  intro fuel
  induction fuel with
  | zero =>
    intro lc state tm tac tas vis e h
    injection h with h1
    subst h1
    rfl
  | succ n ih =>
    intro lc state tm tac tas vis e h
    unfold swapLoop at h
    split at h
    · split at h
      · injection h with h1
        subst h1
        rfl
      · rcases exbind_error h with h1 | ⟨r, hr, h2⟩
        · exact swapBody_error h1
        · exact ih (lc + 1) r.1 r.2.1 r.2.2.1 r.2.2.2.1 r.2.2.2.2 e h2
    · simp at h

lemma swapLoop_count {env : ClmmEnv} {pool : PoolState} {zfo ibi : Bool} {tfr : Nat}
    {cvidx : Int} {lim : Nat} :
    ∀ (fuel lc : Nat) (state : SwapState) (tm : Bool) (tac : TickArrayState)
      (tas : List TickArrayState) (vis : List Int) (st : SwapState) (v : List Int) (f : Nat),
      swapLoop env pool zfo ibi tfr cvidx lim fuel lc state tm tac tas vis = .ok (st, v, f) →
      f ≤ lc ∨ f ≤ 11 := by
  intro fuel
  induction fuel with
  | zero =>
    intro lc state tm tac tas vis st v f h
    simp [swapLoop] at h
  | succ n ih =>
    intro lc state tm tac tas vis st v f h
    unfold swapLoop at h
    split at h
    · split at h
      · simp at h
      · rcases exbind_ok h with ⟨r, hr, h2⟩
        rename_i hlc
        have := ih (lc + 1) r.1 r.2.1 r.2.2.1 r.2.2.2.1 r.2.2.2.2 st v f h2
        omega
    · simp only [Except.ok.injEq, Prod.mk.injEq] at h
      omega

lemma swapLoop_vis {env : ClmmEnv} {pool : PoolState} {zfo ibi : Bool} {tfr : Nat}
    {cvidx : Int} {lim : Nat} :
    ∀ (fuel lc : Nat) (state : SwapState) (tm : Bool) (tac : TickArrayState)
      (tas : List TickArrayState) (vis : List Int) (st : SwapState) (v : List Int) (f : Nat),
      swapLoop env pool zfo ibi tfr cvidx lim fuel lc state tm tac tas vis = .ok (st, v, f) →
      ∃ k, k ≤ tas.length ∧ v = vis ++ (tas.take k).map TickArrayState.start_tick_index ∧
        ∀ j ∈ (tas.take k).map TickArrayState.start_tick_index,
          env.next_init_tick_array_start_index cvidx zfo = .ok (some j) := by
  intro fuel
  induction fuel with
  | zero =>
    intro lc state tm tac tas vis st v f h
    simp [swapLoop] at h
  | succ n ih =>
    intro lc state tm tac tas vis st v f h
    unfold swapLoop at h
    split at h
    · split at h
      · simp at h
      · rcases exbind_ok h with ⟨r, hr, h2⟩
        have hbody : swapBody env pool zfo ibi tfr cvidx lim state tm tac tas vis
            = .ok (r.1, r.2.1, r.2.2.1, r.2.2.2.1, r.2.2.2.2) := hr
        obtain ⟨k, hk, hv, hall⟩ :=
          ih (lc + 1) r.1 r.2.1 r.2.2.1 r.2.2.2.1 r.2.2.2.2 st v f h2
        rcases swapBody_vis hbody with ⟨hveq, htaseq⟩ | ⟨a, rest, hcons, htaseq, hveq, hq⟩
        · refine ⟨k, ?_, ?_, ?_⟩
          · rw [← htaseq]; exact hk
          · rw [hv, hveq, htaseq]
          · rw [← htaseq]; exact hall
        · subst hcons
          rw [htaseq] at hk hall
          refine ⟨k + 1, by simpa using Nat.succ_le_succ hk, ?_, ?_⟩
          · rw [hv, hveq, htaseq, List.take_succ_cons, List.map_cons]
            simp
          · intro j hj
            rw [List.take_succ_cons, List.map_cons] at hj
            rcases List.mem_cons.mp hj with hj1 | hj2
            · rw [hj1]
              exact hq
            · exact hall j hj2
    · simp only [Except.ok.injEq, Prod.mk.injEq] at h
      obtain ⟨-, hveq, -⟩ := h
      exact ⟨0, by simp, by simp [← hveq], by simp⟩

lemma swap_compute_traced_error_past_validation {env : ClmmEnv} {zfo ibi ipca : Bool}
    {tfr amt : Nat} {cvidx : Int} {spl : Nat} {pool : PoolState}
    {arrays : List TickArrayState} {e : SwapErr}
    (hamt : amt ≠ 0)
    (h1 : ¬(zfo = true ∧ effective_limit zfo spl < MIN_SQRT_PRICE_X64))
    (h2 : ¬(zfo = true ∧ pool.sqrt_price_x64 ≤ effective_limit zfo spl))
    (h3 : ¬(zfo = false ∧ MAX_SQRT_PRICE_X64 < effective_limit zfo spl))
    (h4 : ¬(zfo = false ∧ effective_limit zfo spl ≤ pool.sqrt_price_x64))
    (h : swap_compute_traced env zfo ibi ipca tfr amt cvidx spl pool arrays = .error e) :
    e.isLoopErr = true := by
  unfold swap_compute_traced at h
  rw [if_neg hamt, if_neg h1, if_neg h2, if_neg h3, if_neg h4] at h
  rcases arrays with _ | ⟨tac, rest⟩
  · injection h with h5
    subst h5
    rfl
  · dsimp only [] at h
    split at h
    · injection h with h5
      subst h5
      rfl
    · exact swapLoop_error 12 0 _ _ _ _ _ e h

lemma swap_compute_traced_ok_shape {env : ClmmEnv} {zfo ibi ipca : Bool}
    {tfr amt : Nat} {cvidx : Int} {spl : Nat} {pool : PoolState}
    {arrays : List TickArrayState} {st : SwapState} {v : List Int} {f : Nat}
    (h : swap_compute_traced env zfo ibi ipca tfr amt cvidx spl pool arrays
      = .ok (st, v, f)) :
    ∃ tac rest, arrays = tac :: rest ∧ tac.start_tick_index = cvidx ∧
      swapLoop env pool zfo ibi tfr cvidx (effective_limit zfo spl) 12 0
        ⟨amt, 0, pool.sqrt_price_x64, pool.tick_current, pool.liquidity⟩
        ipca tac rest [tac.start_tick_index] = .ok (st, v, f) := by
  unfold swap_compute_traced at h
  split at h
  · simp at h
  · split at h
    · simp at h
    · split at h
      · simp at h
      · split at h
        · simp at h
        · split at h
          · simp at h
          · rcases arrays with _ | ⟨tac, rest⟩
            · simp at h
            · dsimp only [] at h
              split at h
              · simp at h
              · rename_i hne
                refine ⟨tac, rest, rfl, ?_, h⟩
                by_contra hc
                exact hne hc

lemma aws_up_eval (a b : Nat) (hb : b + TEN_THOUSAND < U128_MOD)
    (hm : a * (b + TEN_THOUSAND) < U128_MOD)
    (hr : a * (b + TEN_THOUSAND) / TEN_THOUSAND < U64_MOD) :
    amount_with_slippage a b true = .ok (a * (b + TEN_THOUSAND) / TEN_THOUSAND) := by
  unfold amount_with_slippage
  rw [if_pos rfl, if_neg (by omega), if_neg (by omega), if_pos hr]

lemma aws_down_eval (a b : Nat) (hb : b ≤ TEN_THOUSAND)
    (hm : a * (TEN_THOUSAND - b) < U128_MOD)
    (hr : a * (TEN_THOUSAND - b) / TEN_THOUSAND < U64_MOD) :
    amount_with_slippage a b false = .ok (a * (TEN_THOUSAND - b) / TEN_THOUSAND) := by
  unfold amount_with_slippage
  rw [if_neg (by simp), if_neg (by omega), if_neg (by omega), if_pos hr]

lemma ten_thousand_pos : 0 < TEN_THOUSAND := by norm_num [TEN_THOUSAND]

lemma u64_times_2ten_lt : U64_MOD * (2 * TEN_THOUSAND) ≤ U128_MOD := by
  norm_num [U64_MOD, U128_MOD, TEN_THOUSAND]

lemma two_ten_lt_u128 : 2 * TEN_THOUSAND < U128_MOD := by
  norm_num [TEN_THOUSAND, U128_MOD]

lemma aws_zero_id (a : Nat) (ha : a < U64_MOD) :
    amount_with_slippage a 0 true = .ok a ∧ amount_with_slippage a 0 false = .ok a := by
  have hd : a * TEN_THOUSAND / TEN_THOUSAND = a := Nat.mul_div_cancel a ten_thousand_pos
  have hm : a * TEN_THOUSAND < U128_MOD := by
    calc a * TEN_THOUSAND < U64_MOD * TEN_THOUSAND :=
          (Nat.mul_lt_mul_right ten_thousand_pos).mpr ha
      _ ≤ U128_MOD := by norm_num [U64_MOD, U128_MOD, TEN_THOUSAND]
  constructor
  · have h := aws_up_eval a 0 (by norm_num [TEN_THOUSAND, U128_MOD])
      (by rw [Nat.zero_add]; exact hm) (by rw [Nat.zero_add, hd]; exact ha)
    rw [h, Nat.zero_add, hd]
  · have h := aws_down_eval a 0 (Nat.zero_le _)
      (by rw [Nat.sub_zero]; exact hm) (by rw [Nat.sub_zero, hd]; exact ha)
    rw [h, Nat.sub_zero, hd]

/-- Claim C10: for every amount below the u64 bound, amount_with_slippage with
slippage_bps = 0 is the identity in both the widening and narrowing direction. -/
theorem amount_with_slippage_zero_identity (a : Nat) (ha : a < U64_MOD) :
    amount_with_slippage a 0 true = .ok a ∧ amount_with_slippage a 0 false = .ok a :=
  aws_zero_id a ha

/-- Witness for C10 at amount 7. -/
theorem amount_with_slippage_zero_identity_witness :
    7 < U64_MOD ∧
      (amount_with_slippage 7 0 true = .ok 7 ∧ amount_with_slippage 7 0 false = .ok 7) :=
  ⟨by norm_num [U64_MOD], amount_with_slippage_zero_identity 7 (by norm_num [U64_MOD])⟩

/-- Claim C7: for a fixed amount below the u64 bound and slippage values at most
10000 whose widened result fits in u64, amount_with_slippage succeeds in both
directions and is monotone in slippage_bps: non-decreasing when widening
(up_towards = true) and non-increasing when narrowing (up_towards = false). -/
theorem amount_with_slippage_monotone (a b1 b2 : Nat) (ha : a < U64_MOD) (h12 : b1 ≤ b2)
    (h2 : b2 ≤ TEN_THOUSAND)
    (hfit : a * (b2 + TEN_THOUSAND) / TEN_THOUSAND < U64_MOD) :
    (amount_with_slippage a b1 true = .ok (a * (b1 + TEN_THOUSAND) / TEN_THOUSAND)
      ∧ amount_with_slippage a b2 true = .ok (a * (b2 + TEN_THOUSAND) / TEN_THOUSAND)
      ∧ a * (b1 + TEN_THOUSAND) / TEN_THOUSAND ≤ a * (b2 + TEN_THOUSAND) / TEN_THOUSAND)
    ∧ (amount_with_slippage a b1 false = .ok (a * (TEN_THOUSAND - b1) / TEN_THOUSAND)
      ∧ amount_with_slippage a b2 false = .ok (a * (TEN_THOUSAND - b2) / TEN_THOUSAND)
      ∧ a * (TEN_THOUSAND - b2) / TEN_THOUSAND ≤ a * (TEN_THOUSAND - b1) / TEN_THOUSAND) := by
  have hup : a * (b1 + TEN_THOUSAND) ≤ a * (b2 + TEN_THOUSAND) :=
    Nat.mul_le_mul le_rfl (by omega)
  have hm2 : a * (b2 + TEN_THOUSAND) < U128_MOD := by
    have hb : b2 + TEN_THOUSAND ≤ 2 * TEN_THOUSAND := by omega
    calc a * (b2 + TEN_THOUSAND) ≤ a * (2 * TEN_THOUSAND) := Nat.mul_le_mul le_rfl hb
      _ < U64_MOD * (2 * TEN_THOUSAND) := by
          have h0 : 0 < 2 * TEN_THOUSAND := by norm_num [TEN_THOUSAND]
          exact (Nat.mul_lt_mul_right h0).mpr ha
      _ ≤ U128_MOD := u64_times_2ten_lt
  have hm1 : a * (b1 + TEN_THOUSAND) < U128_MOD := lt_of_le_of_lt hup hm2
  have hfit1 : a * (b1 + TEN_THOUSAND) / TEN_THOUSAND < U64_MOD :=
    lt_of_le_of_lt (Nat.div_le_div_right hup) hfit
  have hdmono : a * (TEN_THOUSAND - b2) ≤ a * (TEN_THOUSAND - b1) :=
    Nat.mul_le_mul le_rfl (by omega)
  have hda : ∀ b, a * (TEN_THOUSAND - b) / TEN_THOUSAND < U64_MOD := by
    intro b
    have h1 : a * (TEN_THOUSAND - b) ≤ a * TEN_THOUSAND := Nat.mul_le_mul le_rfl (by omega)
    have h2 : a * TEN_THOUSAND / TEN_THOUSAND = a := Nat.mul_div_cancel a ten_thousand_pos
    calc a * (TEN_THOUSAND - b) / TEN_THOUSAND ≤ a * TEN_THOUSAND / TEN_THOUSAND :=
          Nat.div_le_div_right h1
      _ < U64_MOD := by rw [h2]; exact ha
  have hdm : ∀ b, a * (TEN_THOUSAND - b) < U128_MOD := by
    intro b
    have h1 : a * (TEN_THOUSAND - b) ≤ a * TEN_THOUSAND := Nat.mul_le_mul le_rfl (by omega)
    have h3 : a * TEN_THOUSAND < U128_MOD := by
      calc a * TEN_THOUSAND < U64_MOD * TEN_THOUSAND :=
            (Nat.mul_lt_mul_right ten_thousand_pos).mpr ha
        _ ≤ U128_MOD := by norm_num [U64_MOD, U128_MOD, TEN_THOUSAND]
    exact lt_of_le_of_lt h1 h3
  refine ⟨⟨?_, ?_, Nat.div_le_div_right hup⟩, ?_, ?_, Nat.div_le_div_right hdmono⟩
  · exact aws_up_eval a b1 (by have hl := two_ten_lt_u128; omega) hm1 hfit1
  · exact aws_up_eval a b2 (by have hl := two_ten_lt_u128; omega) hm2 hfit
  · exact aws_down_eval a b1 (le_trans h12 h2) (hdm b1) (hda b1)
  · exact aws_down_eval a b2 h2 (hdm b2) (hda b2)

/-- Witness for C7 at amount 1000 and slippage values 50 and 100. -/
theorem amount_with_slippage_monotone_witness :
    (amount_with_slippage 1000 50 true = .ok 1005
      ∧ amount_with_slippage 1000 100 true = .ok 1010
      ∧ 1005 ≤ 1010)
    ∧ (amount_with_slippage 1000 50 false = .ok 995
      ∧ amount_with_slippage 1000 100 false = .ok 990
      ∧ 990 ≤ 995) :=
  amount_with_slippage_monotone 1000 50 100 (by norm_num [U64_MOD]) (by norm_num)
    (by norm_num [TEN_THOUSAND]) (by norm_num [TEN_THOUSAND, U64_MOD])

lemma u64_plus_ten_lt : U64_MOD + TEN_THOUSAND < U128_MOD := by
  norm_num [U64_MOD, TEN_THOUSAND, U128_MOD]

/-- Counterexample to claim C6: in the narrowing direction (up_towards = false) a
slippage value above 10000 is not accepted; the checked_sub 10000 - slippage_bps
underflows and the unwrap aborts, so no computed amount is returned. -/
theorem amount_with_slippage_over10000_counterexample :
    amount_with_slippage 100 10001 false = .error (.rustPanic "checked_sub underflow") := rfl

/-- Claim C6 as amended: for slippage_bps above 10000 (a u64 value), the widening
direction returns a computed amount (absent u128 multiply overflow and with the
result inside u64), while the narrowing direction always aborts on the
checked_sub underflow and never returns a computed amount. -/
theorem amount_with_slippage_over10000_amended (a b : Nat) (hb : TEN_THOUSAND < b)
    (hbu : b < U64_MOD) (hm : a * (b + TEN_THOUSAND) < U128_MOD)
    (hfit : a * (b + TEN_THOUSAND) / TEN_THOUSAND < U64_MOD) :
    amount_with_slippage a b true = .ok (a * (b + TEN_THOUSAND) / TEN_THOUSAND)
    ∧ amount_with_slippage a b false = .error (.rustPanic "checked_sub underflow") := by
  constructor
  · exact aws_up_eval a b (by have hl := u64_plus_ten_lt; omega) hm hfit
  · unfold amount_with_slippage
    rw [if_neg (by simp), if_pos hb]

/-- Witness for the amended C6 at amount 100 and slippage 10001. -/
theorem amount_with_slippage_over10000_amended_witness :
    amount_with_slippage 100 10001 true = .ok 200
    ∧ amount_with_slippage 100 10001 false = .error (.rustPanic "checked_sub underflow") :=
  amount_with_slippage_over10000_amended 100 10001 (by norm_num [TEN_THOUSAND])
    (by norm_num [U64_MOD]) (by norm_num [TEN_THOUSAND, U128_MOD])
    (by norm_num [TEN_THOUSAND, U64_MOD])

/-- Claim C5: whenever the transfer-fee record active at the epoch carries
transfer_fee_basis_points equal to MAX_FEE_BASIS_POINTS, get_transfer_inverse_fee
returns exactly that record maximum_fee, for every post_fee_amount. -/
theorem get_transfer_inverse_fee_max_bps (c : TransferFeeConfig) (epoch post : Nat)
    (h : (c.get_epoch_fee epoch).transfer_fee_basis_points = MAX_FEE_BASIS_POINTS) :
    get_transfer_inverse_fee (some c) epoch post = (c.get_epoch_fee epoch).maximum_fee := by
  show (if (c.get_epoch_fee epoch).transfer_fee_basis_points = MAX_FEE_BASIS_POINTS
      then (c.get_epoch_fee epoch).maximum_fee
      else c.calculate_inverse_epoch_fee epoch post) = (c.get_epoch_fee epoch).maximum_fee
  rw [if_pos h]

/-- A transfer-fee config whose both generations carry the maximal basis points
10000 and maximum_fee 500. -/
def cfgMax : TransferFeeConfig := ⟨⟨0, 500, 10000⟩, ⟨0, 500, 10000⟩⟩

/-- Witness for C5: at epoch 3 the fee is the maximum_fee 500 for two different
post-fee amounts. -/
theorem get_transfer_inverse_fee_max_bps_witness :
    get_transfer_inverse_fee (some cfgMax) 3 123456 = 500
    ∧ get_transfer_inverse_fee (some cfgMax) 3 0 = 500 :=
  ⟨get_transfer_inverse_fee_max_bps cfgMax 3 123456 rfl,
   get_transfer_inverse_fee_max_bps cfgMax 3 0 rfl⟩

/-- Counterexample to claim C3: the CLMM exact-output threshold is not computed
in the CP-Swap order.  With the max-bps fee config (inverse fee = 500), a raw
requirement of 10000 and 100 bps of slippage, CLMM widens first and then adds
the fee (10100 + 500 = 10600) while the CP-Swap composition adds the fee first
and then widens ((10000 + 500) * 10100 / 10000 = 10605). -/
theorem clmm_exact_out_order_counterexample :
    clmm_exact_out_threshold (some cfgMax) 0 10000 100 = .ok 10600
    ∧ cpswap_exact_out_threshold (some cfgMax) 0 10000 100 = .ok 10605
    ∧ clmm_exact_out_threshold (some cfgMax) 0 10000 100
        ≠ cpswap_exact_out_threshold (some cfgMax) 0 10000 100 := by
  refine ⟨rfl, rfl, ?_⟩
  intro h
  rw [show clmm_exact_out_threshold (some cfgMax) 0 10000 100 = .ok 10600 from rfl,
    show cpswap_exact_out_threshold (some cfgMax) 0 10000 100 = .ok 10605 from rfl] at h
  injection h with h1
  norm_num at h1

/-- Claim C3 as amended: the CLMM exact-output path composes in the reverse
order of CP-Swap - it applies the SlippageBps widening first and only then adds
the inverse transfer fee of the already-widened amount; the two orders agree
when slippage_bps is 0 (absent u64 overflow). -/
theorem clmm_exact_out_order_amended :
    (∀ (cfg : Option TransferFeeConfig) (epoch raw bps : Nat),
      clmm_exact_out_threshold cfg epoch raw bps
        = (amount_with_slippage raw bps true).map
            (fun t => (t + get_transfer_inverse_fee cfg epoch t) % U64_MOD))
    ∧ (∀ (cfg : Option TransferFeeConfig) (epoch raw : Nat), raw < U64_MOD →
        raw + get_transfer_inverse_fee cfg epoch raw < U64_MOD →
        clmm_exact_out_threshold cfg epoch raw 0
          = cpswap_exact_out_threshold cfg epoch raw 0) := by
  constructor
  · intro cfg epoch raw bps
    unfold clmm_exact_out_threshold
    rcases hx : amount_with_slippage raw bps true with e | t
    · rfl
    · rfl
  · intro cfg epoch raw h1 h2
    obtain ⟨hup, -⟩ := aws_zero_id raw h1
    have hsum := (aws_zero_id (raw + get_transfer_inverse_fee cfg epoch raw) h2).1
    unfold clmm_exact_out_threshold cpswap_exact_out_threshold
    rw [hup]
    dsimp only []
    rw [if_neg (by omega), hsum, Nat.mod_eq_of_lt h2]

/-- Witness for the amended C3 at raw requirement 5000 with zero slippage. -/
theorem clmm_exact_out_order_amended_witness :
    clmm_exact_out_threshold (some cfgMax) 0 5000 0
      = cpswap_exact_out_threshold (some cfgMax) 0 5000 0 :=
  clmm_exact_out_order_amended.2 (some cfgMax) 0 5000 (by norm_num [U64_MOD]) (by decide)

/-- Claim C4: in exact-output AMM quoting (swap_base_in = false), for a fee rate
with numerator below denominator (and no u128 or u64 overflow), the returned
input threshold equals the ceiling of amount_in_before_fee * den / (den - num),
where amount_in_before_fee is the constant-product inversion of the requested
output. -/
theorem swap_exact_amount_exact_output (pc coin num den amt : Nat) (dir : SwapDirection)
    (hfee : num < den)
    (hmul : swap_token_amount_base_out amt pc coin dir * den < U128_MOD)
    (hfit : (swap_token_amount_base_out amt pc coin dir * den + (den - num) - 1) / (den - num)
      < U64_MOD) :
    swap_exact_amount pc coin num den dir amt false
      = .ok ((swap_token_amount_base_out amt pc coin dir * den + (den - num) - 1)
          / (den - num)) := by
  unfold swap_exact_amount
  rw [if_neg (by simp)]
  dsimp only []
  rw [if_neg (by omega), if_neg (by omega)]
  unfold checked_ceil_div
  rw [if_neg (by omega)]
  dsimp only []
  rw [if_pos hfit]

/-- Witness for C4: a 1000-unit exact-output quote on symmetric million-unit
vaults with the 25/10000 fee rate yields the threshold 1005. -/
theorem swap_exact_amount_exact_output_witness :
    swap_exact_amount 1000000 1000000 25 10000 .Coin2PC 1000 false = .ok 1005 :=
  swap_exact_amount_exact_output 1000000 1000000 25 10000 1000 .Coin2PC (by norm_num)
    (by decide) (by decide)

lemma swap_compute_eq_error {env : ClmmEnv} {zfo ibi ipca : Bool} {tfr amt : Nat}
    {cvidx : Int} {spl : Nat} {pool : PoolState} {arrays : List TickArrayState} {e : SwapErr}
    (h : swap_compute_traced env zfo ibi ipca tfr amt cvidx spl pool arrays = .error e) :
    swap_compute env zfo ibi ipca tfr amt cvidx spl pool arrays = .error e := by
  unfold swap_compute
  rw [h]

lemma swap_compute_error_inv {env : ClmmEnv} {zfo ibi ipca : Bool} {tfr amt : Nat}
    {cvidx : Int} {spl : Nat} {pool : PoolState} {arrays : List TickArrayState} {e : SwapErr}
    (h : swap_compute env zfo ibi ipca tfr amt cvidx spl pool arrays = .error e) :
    swap_compute_traced env zfo ibi ipca tfr amt cvidx spl pool arrays = .error e := by
  unfold swap_compute at h
  rcases htr : swap_compute_traced env zfo ibi ipca tfr amt cvidx spl pool arrays
    with e1 | ⟨st, v, f⟩
  · rw [htr] at h
    injection h with h1
    rw [h1]
  · rw [htr] at h
    simp at h

lemma swap_compute_ok_inv {env : ClmmEnv} {zfo ibi ipca : Bool} {tfr amt : Nat}
    {cvidx : Int} {spl : Nat} {pool : PoolState} {arrays : List TickArrayState}
    {aOut : Nat} {v : List Int}
    (h : swap_compute env zfo ibi ipca tfr amt cvidx spl pool arrays = .ok (aOut, v)) :
    ∃ st f, swap_compute_traced env zfo ibi ipca tfr amt cvidx spl pool arrays
      = .ok (st, v, f) ∧ aOut = st.amount_calculated := by
  unfold swap_compute at h
  rcases htr : swap_compute_traced env zfo ibi ipca tfr amt cvidx spl pool arrays
    with e1 | ⟨st, v1, f⟩
  · rw [htr] at h
    simp at h
  · rw [htr] at h
    simp only [Except.ok.injEq, Prod.mk.injEq] at h
    exact ⟨st, f, by rw [h.2], h.1.symm⟩

lemma effective_limit_nonzero (zfo : Bool) (spl : Nat) (h : spl ≠ 0) :
    effective_limit zfo spl = spl := by
  unfold effective_limit
  rw [if_neg h]

/-- Counterexample to claim C1: a traversal that needs exactly 11 loop
iterations succeeds (the guard is loop_count > 10 checked before the body with
a post-increment), so a successful call is not bounded by 10 iterations and a
swap needing more than 10 steps does not necessarily fail. -/
theorem swap_loop_cap_counterexample :
    swap_compute_traced cexEnv true true true 0 11 0 0 cexPool [cexArray]
      = .ok (⟨0, 0, MIN_SQRT_PRICE_X64 + 100, 0, 1⟩, [0], 11)
    ∧ ¬ (11 ≤ 10) := ⟨rfl, by omega⟩

/-- Claim C1 as amended: the loop cap permits up to 11 iterations - every
successful swap_compute call performed at most 11 loop iterations, and a
traversal that would need a 12th iteration fails with the loop-count error
(shown on a concrete run), returning no partial amount. -/
theorem swap_loop_cap_amended :
    (∀ (env : ClmmEnv) (zfo ibi ipca : Bool) (tfr amt : Nat) (cvidx : Int) (spl : Nat)
      (pool : PoolState) (arrays : List TickArrayState) (st : SwapState) (v : List Int)
      (f : Nat),
      swap_compute_traced env zfo ibi ipca tfr amt cvidx spl pool arrays = .ok (st, v, f) →
      f ≤ 11)
    ∧ swap_compute_traced cexEnv true true true 0 12 0 0 cexPool [cexArray]
        = .error .loopCountLimit := by
  constructor
  · intro env zfo ibi ipca tfr amt cvidx spl pool arrays st v f h
    obtain ⟨tac, rest, -, -, hloop⟩ := swap_compute_traced_ok_shape h
    rcases swapLoop_count 12 0 _ _ _ _ _ st v f hloop with h1 | h1 <;> omega
  · rfl

/-- Witness for the amended C1: the 11-iteration success run is bounded by 11. -/
theorem swap_loop_cap_amended_witness : (11 : Nat) ≤ 11 :=
  swap_loop_cap_amended.1 cexEnv true true true 0 11 0 0 cexPool [cexArray]
    ⟨0, 0, MIN_SQRT_PRICE_X64 + 100, 0, 1⟩ [0] 11 rfl

lemma swap_compute_val_err {env : ClmmEnv} {zfo ibi ipca : Bool} {tfr amt : Nat}
    {cvidx : Int} {spl : Nat} {pool : PoolState} {arrays : List TickArrayState}
    (hamt : amt ≠ 0) :
    (zfo = true → effective_limit zfo spl < MIN_SQRT_PRICE_X64 →
      swap_compute env zfo ibi ipca tfr amt cvidx spl pool arrays = .error .limitBelowMin)
    ∧ (zfo = true → ¬ (effective_limit zfo spl < MIN_SQRT_PRICE_X64) →
        pool.sqrt_price_x64 ≤ effective_limit zfo spl →
        swap_compute env zfo ibi ipca tfr amt cvidx spl pool arrays
          = .error .limitNotBelowCurrent)
    ∧ (zfo = false → MAX_SQRT_PRICE_X64 < effective_limit zfo spl →
        swap_compute env zfo ibi ipca tfr amt cvidx spl pool arrays = .error .limitAboveMax)
    ∧ (zfo = false → ¬ (MAX_SQRT_PRICE_X64 < effective_limit zfo spl) →
        effective_limit zfo spl ≤ pool.sqrt_price_x64 →
        swap_compute env zfo ibi ipca tfr amt cvidx spl pool arrays
          = .error .limitNotAboveCurrent) := by
  refine ⟨?_, ?_, ?_, ?_⟩
  · intro hz hlt
    apply swap_compute_eq_error
    unfold swap_compute_traced
    rw [if_neg hamt, if_pos ⟨hz, hlt⟩]
  · intro hz hnl hle
    apply swap_compute_eq_error
    unfold swap_compute_traced
    rw [if_neg hamt, if_neg (fun hc => hnl hc.2), if_pos ⟨hz, hle⟩]
  · intro hz hlt
    have hzt : ¬ (zfo = true) := by rw [hz]; simp
    apply swap_compute_eq_error
    unfold swap_compute_traced
    rw [if_neg hamt, if_neg (fun hc => hzt hc.1), if_neg (fun hc => hzt hc.1),
      if_pos ⟨hz, hlt⟩]
  · intro hz hnl hle
    have hzt : ¬ (zfo = true) := by rw [hz]; simp
    apply swap_compute_eq_error
    unfold swap_compute_traced
    rw [if_neg hamt, if_neg (fun hc => hzt hc.1), if_neg (fun hc => hzt hc.1),
      if_neg (fun hc => hnl hc.2), if_pos ⟨hz, hle⟩]

/-- Counterexample to claim C2: a nonzero price limit exactly equal to
MIN_SQRT_PRICE_X64 (not strictly above it) passes validation for zero_for_one -
the run below even completes successfully - because the source rejects only
limits strictly below MIN_SQRT_PRICE_X64. -/
theorem price_limit_strictness_counterexample :
    swap_compute cexEnv true true true 0 1 0 MIN_SQRT_PRICE_X64 cexPool [cexArray]
      = .ok (0, [0])
    ∧ MIN_SQRT_PRICE_X64 ≠ 0
    ∧ ¬ (MIN_SQRT_PRICE_X64 < MIN_SQRT_PRICE_X64) :=
  ⟨rfl, by norm_num [MIN_SQRT_PRICE_X64], by omega⟩

/-- Claim C2 as amended: for a nonzero limit and a nonzero amount, zero_for_one
validation accepts exactly MIN_SQRT_PRICE_X64 <= limit < current (inclusive at
the minimum) and one_for_zero accepts exactly current < limit <= MAX_SQRT_PRICE_X64
(inclusive at the maximum); outside these ranges the call fails with the
corresponding price-limit error, and inside them any failure is a traversal
error, never a price-limit error. -/
theorem price_limit_validation_amended :
    ∀ (env : ClmmEnv) (ibi ipca : Bool) (tfr amt : Nat) (cvidx : Int) (spl : Nat)
      (pool : PoolState) (arrays : List TickArrayState),
      amt ≠ 0 → spl ≠ 0 →
      ((spl < MIN_SQRT_PRICE_X64 →
          swap_compute env true ibi ipca tfr amt cvidx spl pool arrays
            = .error .limitBelowMin)
        ∧ (MIN_SQRT_PRICE_X64 ≤ spl → pool.sqrt_price_x64 ≤ spl →
          swap_compute env true ibi ipca tfr amt cvidx spl pool arrays
            = .error .limitNotBelowCurrent)
        ∧ (MIN_SQRT_PRICE_X64 ≤ spl → spl < pool.sqrt_price_x64 →
          ∀ e, swap_compute env true ibi ipca tfr amt cvidx spl pool arrays = .error e →
            e.isLoopErr = true))
      ∧ ((MAX_SQRT_PRICE_X64 < spl →
          swap_compute env false ibi ipca tfr amt cvidx spl pool arrays
            = .error .limitAboveMax)
        ∧ (spl ≤ MAX_SQRT_PRICE_X64 → spl ≤ pool.sqrt_price_x64 →
          swap_compute env false ibi ipca tfr amt cvidx spl pool arrays
            = .error .limitNotAboveCurrent)
        ∧ (spl ≤ MAX_SQRT_PRICE_X64 → pool.sqrt_price_x64 < spl →
          ∀ e, swap_compute env false ibi ipca tfr amt cvidx spl pool arrays = .error e →
            e.isLoopErr = true)) := by
  intro env ibi ipca tfr amt cvidx spl pool arrays hamt hspl
  have heffT : effective_limit true spl = spl := effective_limit_nonzero true spl hspl
  have heffF : effective_limit false spl = spl := effective_limit_nonzero false spl hspl
  refine ⟨⟨?_, ?_, ?_⟩, ?_, ?_, ?_⟩
  · intro hlt
    exact (swap_compute_val_err hamt).1 rfl (by rw [heffT]; exact hlt)
  · intro hge hle
    exact (swap_compute_val_err hamt).2.1 rfl (by rw [heffT]; omega) (by rw [heffT]; exact hle)
  · intro hge hlt e he
    refine swap_compute_traced_error_past_validation hamt ?_ ?_ ?_ ?_
      (swap_compute_error_inv he)
    · rw [heffT]; rintro ⟨-, hc⟩; omega
    · rw [heffT]; rintro ⟨-, hc⟩; omega
    · rintro ⟨hc, -⟩; exact absurd hc (by simp)
    · rintro ⟨hc, -⟩; exact absurd hc (by simp)
  · intro hlt
    exact (swap_compute_val_err hamt).2.2.1 rfl (by rw [heffF]; exact hlt)
  · intro hle1 hle2
    exact (swap_compute_val_err hamt).2.2.2 rfl (by rw [heffF]; omega)
      (by rw [heffF]; exact hle2)
  · intro hle hlt e he
    refine swap_compute_traced_error_past_validation hamt ?_ ?_ ?_ ?_
      (swap_compute_error_inv he)
    · rintro ⟨hc, -⟩; exact absurd hc (by simp)
    · rintro ⟨hc, -⟩; exact absurd hc (by simp)
    · rw [heffF]; rintro ⟨-, hc⟩; omega
    · rw [heffF]; rintro ⟨-, hc⟩; omega

/-- Witness for the amended C2: a nonzero limit 5 below MIN_SQRT_PRICE_X64
produces the below-minimum price-limit error. -/
theorem price_limit_validation_amended_witness :
    swap_compute cexEnv true true true 0 1 0 5 cexPool [cexArray]
      = .error .limitBelowMin :=
  (price_limit_validation_amended cexEnv true true 0 1 0 5 cexPool [cexArray]
    (by norm_num) (by norm_num)).1.1 (by norm_num [MIN_SQRT_PRICE_X64])

/-- Counterexample to claim C8: the zero-limit substitution is as claimed, but a
pool whose current sqrt price is MIN_SQRT_PRICE_X64 + 1 - strictly inside the
price bounds - still fails the validation with the price-limit error, because
the substituted limit MIN_SQRT_PRICE_X64 + 1 is not strictly below the current
price. -/
theorem zero_limit_counterexample :
    swap_compute cexEnv true true true 0 1 0 0 cexPool2 [cexArray]
      = .error .limitNotBelowCurrent
    ∧ MIN_SQRT_PRICE_X64 < cexPool2.sqrt_price_x64
    ∧ cexPool2.sqrt_price_x64 < MAX_SQRT_PRICE_X64 :=
  ⟨rfl, by decide, by decide⟩

/-- Claim C8 as amended: a zero sqrt_price_limit_x64 is replaced by the
directional extreme (MIN_SQRT_PRICE_X64 + 1 or MAX_SQRT_PRICE_X64 - 1) before
validation, so with a nonzero amount the zero-limit call avoids the
price-limit errors exactly when the pool current sqrt price lies strictly
beyond that substituted extreme; at or inside it, the call still fails with the
direction price-limit error. -/
theorem zero_limit_amended :
    ∀ (env : ClmmEnv) (ibi ipca : Bool) (tfr amt : Nat) (cvidx : Int)
      (pool : PoolState) (arrays : List TickArrayState),
      amt ≠ 0 →
      ((MIN_SQRT_PRICE_X64 + 1 < pool.sqrt_price_x64 →
          ∀ e, swap_compute env true ibi ipca tfr amt cvidx 0 pool arrays = .error e →
            e.isLoopErr = true)
        ∧ (pool.sqrt_price_x64 ≤ MIN_SQRT_PRICE_X64 + 1 →
          swap_compute env true ibi ipca tfr amt cvidx 0 pool arrays
            = .error .limitNotBelowCurrent))
      ∧ ((pool.sqrt_price_x64 < MAX_SQRT_PRICE_X64 - 1 →
          ∀ e, swap_compute env false ibi ipca tfr amt cvidx 0 pool arrays = .error e →
            e.isLoopErr = true)
        ∧ (MAX_SQRT_PRICE_X64 - 1 ≤ pool.sqrt_price_x64 →
          swap_compute env false ibi ipca tfr amt cvidx 0 pool arrays
            = .error .limitNotAboveCurrent)) := by
  intro env ibi ipca tfr amt cvidx pool arrays hamt
  have heffT : effective_limit true 0 = MIN_SQRT_PRICE_X64 + 1 := rfl
  have heffF : effective_limit false 0 = MAX_SQRT_PRICE_X64 - 1 := rfl
  refine ⟨⟨?_, ?_⟩, ?_, ?_⟩
  · intro hgt e he
    refine swap_compute_traced_error_past_validation hamt ?_ ?_ ?_ ?_
      (swap_compute_error_inv he)
    · rw [heffT]; rintro ⟨-, hc⟩; omega
    · rw [heffT]; rintro ⟨-, hc⟩; omega
    · rintro ⟨hc, -⟩; exact absurd hc (by simp)
    · rintro ⟨hc, -⟩; exact absurd hc (by simp)
  · intro hle
    exact (swap_compute_val_err hamt).2.1 rfl (by rw [heffT]; omega) (by rw [heffT]; exact hle)
  · intro hlt e he
    refine swap_compute_traced_error_past_validation hamt ?_ ?_ ?_ ?_
      (swap_compute_error_inv he)
    · rintro ⟨hc, -⟩; exact absurd hc (by simp)
    · rintro ⟨hc, -⟩; exact absurd hc (by simp)
    · rw [heffF]; rintro ⟨-, hc⟩; omega
    · rw [heffF]; rintro ⟨-, hc⟩; omega
  · intro hge
    exact (swap_compute_val_err hamt).2.2.2 rfl (by rw [heffF]; omega)
      (by rw [heffF]; exact hge)

/-- Witness for the amended C8: with the zero limit and a current price well
above MIN_SQRT_PRICE_X64 + 1, the only failure of the concrete 12-unit run is
the loop-count traversal error, not a price-limit error. -/
theorem zero_limit_amended_witness : SwapErr.isLoopErr .loopCountLimit = true :=
  (zero_limit_amended cexEnv true true 0 12 0 cexPool [cexArray] (by norm_num)).1.1
    (by decide) .loopCountLimit rfl

/-- Claim C9: every successful swap_compute call returns a non-empty visited
start-index list; its first element is the start_tick_index of the first
staged tick array; the list is exactly the start indices of the first k staged
arrays in consumption order; and every later element was checked against the
next-initialized-tick-array query before being consumed (a mismatching array
aborts the call with the mismatch error instead). -/
theorem visited_tick_arrays_exact :
    ∀ (env : ClmmEnv) (zfo ibi ipca : Bool) (tfr amt : Nat) (cvidx : Int) (spl : Nat)
      (pool : PoolState) (arrays : List TickArrayState) (aOut : Nat) (v : List Int),
      swap_compute env zfo ibi ipca tfr amt cvidx spl pool arrays = .ok (aOut, v) →
      v ≠ [] ∧ v.head? = arrays.head?.map TickArrayState.start_tick_index
        ∧ (∃ k, 1 ≤ k ∧ k ≤ arrays.length
            ∧ v = (arrays.take k).map TickArrayState.start_tick_index)
        ∧ ∀ j ∈ v.tail, env.next_init_tick_array_start_index cvidx zfo = .ok (some j) := by
  intro env zfo ibi ipca tfr amt cvidx spl pool arrays aOut v h
  obtain ⟨st, f, htr, -⟩ := swap_compute_ok_inv h
  obtain ⟨tac, rest, harr, -, hloop⟩ := swap_compute_traced_ok_shape htr
  obtain ⟨k, hk, hv, hall⟩ := swapLoop_vis 12 0 _ _ _ _ _ st v f hloop
  subst harr
  refine ⟨?_, ?_, ⟨k + 1, ?_, ?_, ?_⟩, ?_⟩
  · rw [hv]; simp
  · rw [hv]; simp
  · omega
  · simpa using Nat.succ_le_succ hk
  · rw [hv, List.take_succ_cons, List.map_cons]
    simp
  · intro j hj
    rw [hv] at hj
    simp only [List.singleton_append, List.tail_cons] at hj
    exact hall j hj

/-- A staged tick array with start index 0 whose in-array query finds no next
initialized tick, forcing a crossing into the next staged array. -/
def cexArrayA2 : TickArrayState := ⟨0, fun _ _ _ => .ok none, fun _ => .ok cexTick⟩

/-- The second staged tick array, with start index 60. -/
def cexArrayB : TickArrayState := ⟨60, fun _ _ _ => .ok (some cexTick), fun _ => .ok cexTick⟩

/-- An environment whose bitmap query reports 60 as the next initialized
tick-array start index and whose swap step consumes the whole remaining amount
at once. -/
def cexEnv2 : ClmmEnv :=
  ⟨fun _ _ => .ok (some 60),
   fun _ => .ok (MIN_SQRT_PRICE_X64 + 50),
   fun _ => .ok 0,
   fun sp _ _ rem _ _ _ _ => .ok ⟨sp, rem, 0, 0⟩,
   fun l _ => .ok l⟩

example :
    swap_compute cexEnv2 true true true 0 7 0 0 cexPool [cexArrayA2, cexArrayB]
      = .ok (0, [0, 60]) := rfl

/-- Witness for C9 on a concrete run that crosses one tick-array boundary: the
returned list [0, 60] is the start indices of both staged arrays in order. -/
theorem visited_tick_arrays_exact_witness :
    ([0, 60] : List Int) ≠ []
    ∧ ([0, 60] : List Int).head?
        = ([cexArrayA2, cexArrayB].head?).map TickArrayState.start_tick_index
    ∧ (∃ k, 1 ≤ k ∧ k ≤ ([cexArrayA2, cexArrayB] : List TickArrayState).length
        ∧ ([0, 60] : List Int)
            = (([cexArrayA2, cexArrayB] : List TickArrayState).take k).map
                TickArrayState.start_tick_index)
    ∧ ∀ j ∈ ([0, 60] : List Int).tail,
        cexEnv2.next_init_tick_array_start_index 0 true = .ok (some j) :=
  visited_tick_arrays_exact cexEnv2 true true true 0 7 0 0 cexPool
    [cexArrayA2, cexArrayB] 0 [0, 60] rfl
